import Mathlib

/-!
Shallow embedding of the strategy engine of the Binance trading bot
(`src/basic_bot.py`, `src/advanced/grid_orders.py`, `src/advanced/oco.py`,
`src/advanced/twap.py`).

Modelling conventions:
* Python floats are modelled as exact rationals (`ℚ`); `round(price, 8)`
  is modelled as exact decimal rounding to 8 places with ties to even
  (`round8`), matching Python's round-half-even.
* `math.exp` / `math.log` (used only by the LOGARITHMIC grid branch) are
  transcendental, so they are abstracted as function parameters
  `mexp mlog : ℚ → ℚ`.
* The Order Gateway is an oracle: placement outcomes are an
  `Except String Order` per call index, status queries an
  `Order → Option OrderStatus` (with `none` modelling a query exception,
  which the code logs and skips).
* Wall-clock instants (`time.time()`, `datetime.now()`) are `Nat`
  parameters supplied by the environment.
* Python exceptions become `Except BotError`; a Python `ZeroDivisionError`
  (float / 0) is `BotError.zeroDivision`, since `ℚ` division by zero would
  silently produce 0 where Python raises.
-/

namespace TradingBot

/-- Order side, `validate_side` (basic_bot.py:78) admits exactly these. -/
inductive Side
  | BUY
  | SELL
deriving DecidableEq

/-- The opposite side (used by the grid side split, grid_orders.py:87-90). -/
def Side.opposite : Side → Side
  | .BUY => .SELL
  | .SELL => .BUY

/-- Errors raised by the bot: caller-input validation errors
(`ValueError` with a message), Python's `ZeroDivisionError`, and errors
surfaced by the exchange Gateway. -/
inductive BotError
  | validation (msg : String)
  | zeroDivision
  | exchange (msg : String)
deriving DecidableEq

/-- An exchange order record; only the identity matters to the engine
(`orderId` in the Gateway responses). -/
structure Order where
  orderId : Nat
deriving DecidableEq

/-- Gateway-reported order status (basic_bot.get_order_status results as
classified by the engines). -/
inductive OrderStatus
  | NEW
  | PARTIALLY_FILLED
  | FILLED
  | CANCELED
  | EXPIRED
deriving DecidableEq

/-- Python's `str.upper()` (written through the character list so that the
kernel can evaluate it). -/
def pyUpper (s : String) : String := ⟨s.data.map Char.toUpper⟩

/-- `validate_symbol` (basic_bot.py:60-76): rejects strings shorter than 3
characters and upper-cases the symbol.  The exchange-symbol lookup cannot
reject: the `ValueError` it raises is swallowed by the surrounding
`except Exception` which only logs a warning. -/
def validateSymbol (symbol : String) : Except BotError String :=
  if symbol.length < 3 then .error (.validation "Invalid symbol format")
  else .ok (pyUpper symbol)

/-- `validate_quantity` (basic_bot.py:85-95): quantity must be > 0. -/
def validateQuantity (quantity : ℚ) : Except BotError ℚ :=
  if quantity ≤ 0 then .error (.validation "Quantity must be > 0")
  else .ok quantity

/-- `validate_price` (basic_bot.py:97-107): price must be > 0. -/
def validatePrice (price : ℚ) : Except BotError ℚ :=
  if price ≤ 0 then .error (.validation "Price must be > 0")
  else .ok price

/-- Round-half-even to an integer, the tie rule of Python's `round`. -/
def roundHalfEven (x : ℚ) : ℤ :=
  if x - ⌊x⌋ < 1/2 then ⌊x⌋
  else if 1/2 < x - ⌊x⌋ then ⌊x⌋ + 1
  else if ⌊x⌋ % 2 = 0 then ⌊x⌋ else ⌊x⌋ + 1

/-- `round(price, 8)` (grid_orders.py:94) as exact decimal rounding. -/
def round8 (x : ℚ) : ℚ := (roundHalfEven (x * 100000000) : ℚ) / 100000000

/-! ## Grid Engine (`src/advanced/grid_orders.py`) -/

/-- Grid spacing type (grid_orders.py:64). -/
inductive GridType
  | LINEAR
  | LOGARITHMIC
deriving DecidableEq

/-- Grid lifecycle status (grid_orders.py:113,144,189,202,247). -/
inductive GridStatus
  | CONFIGURED
  | EXECUTING
  | ACTIVE
  | CANCELED
  | ERROR
deriving DecidableEq

/-- One generated grid level (grid_orders.py:92-97), `level` is 1-based. -/
structure GridLevel where
  level : Nat
  price : ℚ
  side : Side
  quantity : ℚ
deriving DecidableEq

/-- One successful placement record appended to `placed_orders`
(grid_orders.py:161-168); `datetime.now()` is a `Nat` timestamp. -/
structure PlacedOrder where
  gridLevel : Nat
  price : ℚ
  side : Side
  quantity : ℚ
  order : Order
  timestamp : Nat
deriving DecidableEq

/-- The registry record `active_grids[grid_id]` (grid_orders.py:103-117). -/
structure GridState where
  symbol : String
  side : Side
  quantityPerOrder : ℚ
  lowerPrice : ℚ
  upperPrice : ℚ
  numOrders : Nat
  gridType : GridType
  priceStep : ℚ
  gridLevels : List GridLevel
  status : GridStatus
  placedOrders : List PlacedOrder
  filledOrders : List PlacedOrder
deriving DecidableEq

/-- The exact (pre-rounding) level price (grid_orders.py:79-82):
`lower + i*step` for LINEAR, `lower * exp(i*step)` for LOGARITHMIC,
with `math.exp` abstracted as `mexp`. -/
def gridRawPrice (mexp : ℚ → ℚ) (gridType : GridType) (lowerPrice priceStep : ℚ)
    (i : Nat) : ℚ :=
  match gridType with
  | .LINEAR => lowerPrice + i * priceStep
  | .LOGARITHMIC => lowerPrice * mexp (i * priceStep)

/-- Side assignment of level `i` (0-based), grid_orders.py:84-90: the first
`num_orders // 2` levels take the primary side, the rest the opposite. -/
def gridLevelSide (side : Side) (numOrders i : Nat) : Side :=
  match side with
  | .BUY => if i < numOrders / 2 then .BUY else .SELL
  | .SELL => if i < numOrders / 2 then .SELL else .BUY

/-- The generated `grid_levels` list (grid_orders.py:77-97). -/
def gridLevels (mexp : ℚ → ℚ) (side : Side) (quantityPerOrder lowerPrice priceStep : ℚ)
    (numOrders : Nat) (gridType : GridType) : List GridLevel :=
  (List.range numOrders).map fun i =>
    { level := i + 1
      price := round8 (gridRawPrice mexp gridType lowerPrice priceStep i)
      side := gridLevelSide side numOrders i
      quantity := quantityPerOrder }

/-- Grid strategy id, grid_orders.py:100: `f"GRID_{symbol}_{int(time.time())}"`. -/
def gridStrategyId (symbol : String) (now : Nat) : String :=
  "GRID_" ++ symbol ++ "_" ++ toString now

/-- `create_grid_strategy` (grid_orders.py:33-128): validations in source
order, automatic `price_step` when omitted (Python raises
`ZeroDivisionError` when `num_orders == 1`), level generation, and the
fresh registry record with status CONFIGURED.  Returns the `(grid_id,
registry record)` pair. -/
def createGridStrategy (mexp mlog : ℚ → ℚ) (now : Nat) (symbol : String) (side : Side)
    (quantityPerOrder lowerPrice upperPrice : ℚ) (numOrders : Nat)
    (gridType : GridType) (priceStep? : Option ℚ) :
    Except BotError (String × GridState) :=
  match validateSymbol symbol with
  | .error e => .error e
  | .ok symbol =>
  match validateQuantity quantityPerOrder with
  | .error e => .error e
  | .ok quantityPerOrder =>
  match validatePrice lowerPrice with
  | .error e => .error e
  | .ok lowerPrice =>
  match validatePrice upperPrice with
  | .error e => .error e
  | .ok upperPrice =>
  if upperPrice ≤ lowerPrice then .error (.validation "lower_price must be < upper_price")
  else if numOrders = 0 then .error (.validation "num_orders must be > 0")
  else
    let step? : Except BotError ℚ :=
      match priceStep? with
      | some ps => validatePrice ps
      | none =>
        if numOrders = 1 then .error .zeroDivision
        else match gridType with
          | .LINEAR => .ok ((upperPrice - lowerPrice) / ((numOrders : ℚ) - 1))
          | .LOGARITHMIC => .ok ((mlog upperPrice - mlog lowerPrice) / ((numOrders : ℚ) - 1))
    match step? with
    | .error e => .error e
    | .ok priceStep =>
      .ok (gridStrategyId symbol now,
        { symbol := symbol
          side := side
          quantityPerOrder := quantityPerOrder
          lowerPrice := lowerPrice
          upperPrice := upperPrice
          numOrders := numOrders
          gridType := gridType
          priceStep := priceStep
          gridLevels := gridLevels mexp side quantityPerOrder lowerPrice priceStep numOrders gridType
          status := .CONFIGURED
          placedOrders := []
          filledOrders := [] })

/-- The per-level placement loop of `execute_grid_orders`
(grid_orders.py:150-187): each level is tried through the Gateway
(`gw i` is the outcome of the i-th call), a failure is recorded and does
not abort later levels.  Returns the successful placement records and the
failed `(level, error)` records, each in placement order. -/
def placeGridLevels (gw : Nat → Except String Order) (t0 : Nat) :
    List (Nat × GridLevel) → List PlacedOrder × List (Nat × String)
  | [] => ([], [])
  | (i, lv) :: rest =>
    let tail := placeGridLevels gw t0 rest
    match gw i with
    | .ok o =>
      ({ gridLevel := lv.level, price := lv.price, side := lv.side,
         quantity := lv.quantity, order := o, timestamp := t0 + i } :: tail.1, tail.2)
    | .error e => (tail.1, (lv.level, e) :: tail.2)

/-- `execute_grid_orders` (grid_orders.py:130-204): no precondition on the
current status; sets EXECUTING, places every level (continue-on-error),
appends the new placements to the existing `placed_orders`, and sets the
status to ACTIVE.  The outer `except` (status ERROR) guards only code that
cannot fail in this model, since every per-level error is caught inside
the loop.  Returns the updated record and the (placed, failed) lists. -/
def executeGridOrders (gw : Nat → Except String Order) (t0 : Nat) (g : GridState) :
    GridState × List PlacedOrder × List (Nat × String) :=
  let r := placeGridLevels gw t0 g.gridLevels.enum
  ({ g with status := .ACTIVE, placedOrders := g.placedOrders ++ r.1 }, r)

/-- The filled-order accumulation of `get_grid_status`
(grid_orders.py:283-295): for each placed order, query the Gateway
(`none` = query exception, logged and skipped); a FILLED order is appended
to `filled_orders` only if not already present. -/
def refreshFilledOrders (statusOf : Order → Option OrderStatus) :
    List PlacedOrder → List PlacedOrder → List PlacedOrder
  | [], filled => filled
  | oi :: rest, filled =>
    refreshFilledOrders statusOf rest
      (match statusOf oi.order with
       | some .FILLED => if oi ∈ filled then filled else filled ++ [oi]
       | _ => filled)

/-- The (active, filled, canceled) counters of `get_grid_status`
(grid_orders.py:279-295); a failed query is skipped. -/
def gridStatusCounts (statusOf : Order → Option OrderStatus) :
    List PlacedOrder → Nat × Nat × Nat
  | [] => (0, 0, 0)
  | oi :: rest =>
    let c := gridStatusCounts statusOf rest
    match statusOf oi.order with
    | none => c
    | some .FILLED => (c.1, c.2.1 + 1, c.2.2)
    | some .CANCELED => (c.1, c.2.1, c.2.2 + 1)
    | some .EXPIRED => (c.1, c.2.1, c.2.2 + 1)
    | some _ => (c.1 + 1, c.2.1, c.2.2)

/-- `get_grid_status` (grid_orders.py:263-308): refreshes the registry
record's `filled_orders` and reports the status counters. -/
def getGridStatus (statusOf : Order → Option OrderStatus) (g : GridState) :
    GridState × (Nat × Nat × Nat) :=
  ({ g with filledOrders := refreshFilledOrders statusOf g.placedOrders g.filledOrders },
   gridStatusCounts statusOf g.placedOrders)

/-! ## OCO Supervisor (`src/advanced/oco.py`) -/

/-- OCO lifecycle status (oco.py:99,142,151,158,215). -/
inductive OcoStatus
  | ACTIVE
  | TAKE_PROFIT_FILLED
  | STOP_LOSS_FILLED
  | CANCELED
deriving DecidableEq

/-- The registry record `active_oco_orders[oco_id]` (oco.py:94-100). -/
structure OcoState where
  symbol : String
  side : Side
  takeProfitOrder : Order
  stopLossOrder : Order
  status : OcoStatus
deriving DecidableEq

/-- OCO strategy id, oco.py:93: `f"{symbol}_{int(time.time())}"` — unlike
the grid and TWAP ids it carries no family prefix. -/
def ocoStrategyId (symbol : String) (now : Nat) : String :=
  symbol ++ "_" ++ toString now

/-- The observable outcome of one `place_oco_order` call: the returned
value or propagated error, the orders this call created on the exchange
(in call order; nothing in the `place` path ever cancels them), the
registry entry inserted, and whether a monitor thread was started. -/
structure OcoPlaceResult where
  result : Except BotError (String × Order × Order)
  placedLegs : List Order
  registered : Option (String × OcoState)
  monitorStarted : Bool

/-- The Gateway phase of `place_oco_order` (oco.py:70-117): place the
take-profit leg, then the stop-loss leg (`tpRes`, `slRes` are the Gateway
outcomes); on either failure the exception propagates (`except ... raise`)
with no registration, no monitor, and no cancellation of an
already-placed first leg.  On success the OCOState is registered with
status ACTIVE and the monitor is started. -/
def ocoPlaceLegs (tpRes slRes : Except String Order) (now : Nat) (symbol : String)
    (side : Side) : OcoPlaceResult :=
  match tpRes with
  | .error e =>
    { result := .error (.exchange e), placedLegs := [], registered := none,
      monitorStarted := false }
  | .ok tpOrder =>
    match slRes with
    | .error e =>
      { result := .error (.exchange e), placedLegs := [tpOrder], registered := none,
        monitorStarted := false }
    | .ok slOrder =>
      let ocoId := ocoStrategyId symbol now
      { result := .ok (ocoId, tpOrder, slOrder)
        placedLegs := [tpOrder, slOrder]
        registered := some (ocoId,
          { symbol := symbol, side := side, takeProfitOrder := tpOrder,
            stopLossOrder := slOrder, status := .ACTIVE })
        monitorStarted := true }

/-- A validation failure of `place_oco_order`: the call raises before any
Gateway call, so nothing is placed, registered or monitored. -/
def ocoReject (e : BotError) : OcoPlaceResult :=
  { result := .error e, placedLegs := [], registered := none, monitorStarted := false }

/-- `place_oco_order` (oco.py:36-117): validations in source order
(symbol, side is typed, quantity, the two prices, time-in-force, then the
bracketing rule at oco.py:63-68), before the first Gateway call. -/
def placeOcoOrder (tpRes slRes : Except String Order) (now : Nat) (symbol : String)
    (side : Side) (quantity takeProfitPrice stopLossPrice : ℚ)
    (timeInForce : String) : OcoPlaceResult :=
  match validateSymbol symbol with
  | .error e => ocoReject e
  | .ok symbol =>
  match validateQuantity quantity with
  | .error e => ocoReject e
  | .ok _quantity =>
  match validatePrice takeProfitPrice with
  | .error e => ocoReject e
  | .ok takeProfitPrice =>
  match validatePrice stopLossPrice with
  | .error e => ocoReject e
  | .ok stopLossPrice =>
  if timeInForce ∉ ["GTC", "IOC", "FOK"] then
    ocoReject (.validation "time_in_force must be GTC, IOC, or FOK")
  else
    match side with
    | .BUY =>
      if takeProfitPrice ≤ stopLossPrice then
        ocoReject (.validation "For BUY orders: take_profit_price must be > stop_loss_price")
      else ocoPlaceLegs tpRes slRes now symbol side
    | .SELL =>
      if stopLossPrice ≤ takeProfitPrice then
        ocoReject (.validation "For SELL orders: take_profit_price must be < stop_loss_price")
      else ocoPlaceLegs tpRes slRes now symbol side

/-! ## TWAP Scheduler (`src/advanced/twap.py`) -/

/-- TWAP lifecycle status (twap.py:98,182,201). -/
inductive TwapStatus
  | ACTIVE
  | COMPLETED
  | CANCELED
deriving DecidableEq

/-- TWAP order type (twap.py:60). -/
inductive OrderType
  | MARKET
  | LIMIT
deriving DecidableEq

/-- One entry of `executed_orders` (twap.py:153-158); `slice_num` is
1-based.  The `datetime.now()` timestamp is omitted: no operation reads it. -/
structure TwapSlice where
  sliceNum : Nat
  quantity : ℚ
  order : Order
deriving DecidableEq

/-- One entry of `failed_orders` (twap.py:170-175). -/
structure TwapFailure where
  sliceNum : Nat
  quantity : ℚ
  error : String
deriving DecidableEq

/-- The registry record `active_twap_orders[twap_id]` (twap.py:85-101). -/
structure TwapState where
  symbol : String
  side : Side
  totalQuantity : ℚ
  remainingQuantity : ℚ
  numSlices : Nat
  sliceQuantity : ℚ
  sliceInterval : ℚ
  orderType : OrderType
  price : Option ℚ
  startTime : Nat
  endTime : Nat
  status : TwapStatus
  executedOrders : List TwapSlice
  failedOrders : List TwapFailure
deriving DecidableEq

/-- TWAP strategy id, twap.py:82: `f"TWAP_{symbol}_{int(time.time())}"`. -/
def twapStrategyId (symbol : String) (now : Nat) : String :=
  "TWAP_" ++ symbol ++ "_" ++ toString now

/-- The state effect of `cancel_twap_order` (twap.py:200-202): status
becomes CANCELED and `end_time` is restamped at the cancel instant `t`. -/
def cancelTwap (t : Nat) (st : TwapState) : TwapState :=
  { st with status := .CANCELED, endTime := t }

/-- One slice placement (twap.py:136-160, 168-175): `gw i` is the Gateway
outcome for slice index `i` (0-based).  Success appends to
`executed_orders` and decrements `remaining_quantity`; failure appends to
`failed_orders` and leaves the remaining quantity untouched. -/
def twapPlaceSlice (gw : Nat → Except String Order) (i : Nat) (q : ℚ)
    (st : TwapState) : TwapState :=
  match gw i with
  | .ok o =>
    { st with
      executedOrders := st.executedOrders ++ [⟨i + 1, q, o⟩]
      remainingQuantity := st.remainingQuantity - q }
  | .error e =>
    { st with failedOrders := st.failedOrders ++ [⟨i + 1, q, e⟩] }

/-- The slicing loop of `_execute_twap_slices` (twap.py:122-179) over the
remaining slice indices.  `cancelAt i = some t` models an external
`cancel_twap_order` call interleaved at the boundary before iteration `i`
(the only point where the loop can observe it); the loop then breaks on
`status != 'ACTIVE'`.  A non-final slice uses the nominal slice quantity,
the final slice the exact remaining quantity; a non-positive quantity
breaks the loop; a placement failure does not abort later slices. -/
def twapRun (gw : Nat → Except String Order) (cancelAt : Nat → Option Nat)
    (n : Nat) : List Nat → TwapState → TwapState
  | [], st => st
  | i :: rest, st =>
    let st := match cancelAt i with
      | some t => cancelTwap t st
      | none => st
    if st.status = .ACTIVE then
      let q := if i = n - 1 then st.remainingQuantity else st.sliceQuantity
      if q ≤ 0 then st
      else twapRun gw cancelAt n rest (twapPlaceSlice gw i q st)
    else st

/-- `_execute_twap_slices` (twap.py:118-185): run the slicing loop over
slices `0..num_slices-1`, then — unconditionally, twap.py:182-183 — set
the status to COMPLETED and stamp `end_time` with the loop-exit instant
`tEnd`. -/
def executeTwapSlices (gw : Nat → Except String Order) (cancelAt : Nat → Option Nat)
    (tEnd : Nat) (st : TwapState) : TwapState :=
  let r := twapRun gw cancelAt st.numSlices (List.range st.numSlices) st
  { r with status := .COMPLETED, endTime := tEnd }

/-- The LIMIT-price validation of `execute_twap_order` (twap.py:63-67):
LIMIT requires a price, which is then validated; a MARKET order keeps any
supplied price untouched. -/
def validateLimitPrice : OrderType → Option ℚ → Except BotError (Option ℚ)
  | .LIMIT, none => .error (.validation "Price is required for LIMIT orders")
  | .LIMIT, some p =>
    match validatePrice p with
    | .error e => .error e
    | .ok p => .ok (some p)
  | .MARKET, p => .ok p

/-- `execute_twap_order` (twap.py:33-116): validations in source order,
default slice count `max(1, min(duration_minutes, 60))`, nominal slice
quantity and interval, registration of the ACTIVE record, and the
synchronous run of the slicing loop.  Returns the `(twap_id, registry
record after the loop)` pair. -/
def executeTwapOrder (gw : Nat → Except String Order) (cancelAt : Nat → Option Nat)
    (now tEnd : Nat) (symbol : String) (side : Side) (totalQuantity : ℚ)
    (durationMinutes : Nat) (numSlices? : Option Nat) (orderType : OrderType)
    (price? : Option ℚ) : Except BotError (String × TwapState) :=
  match validateSymbol symbol with
  | .error e => .error e
  | .ok symbol =>
  match validateQuantity totalQuantity with
  | .error e => .error e
  | .ok totalQuantity =>
  if durationMinutes = 0 then .error (.validation "Duration must be > 0 minutes")
  else
    match validateLimitPrice orderType price? with
    | .error e => .error e
    | .ok price? =>
      let numSlices := numSlices?.getD (max 1 (min durationMinutes 60))
      if numSlices = 0 then .error (.validation "Number of slices must be > 0")
      else
        let st0 : TwapState :=
          { symbol := symbol
            side := side
            totalQuantity := totalQuantity
            remainingQuantity := totalQuantity
            numSlices := numSlices
            sliceQuantity := totalQuantity / numSlices
            sliceInterval := ((durationMinutes : ℚ) * 60) / numSlices
            orderType := orderType
            price := price?
            startTime := now
            endTime := now + durationMinutes * 60
            status := .ACTIVE
            executedOrders := []
            failedOrders := [] }
        .ok (twapStrategyId symbol now, executeTwapSlices gw cancelAt tEnd st0)


/-! ## Helper lemmas and claim theorems -/

lemma validateSymbol_ok (s : String) (h : 3 ≤ s.length) :
    validateSymbol s = .ok (pyUpper s) := by
  unfold validateSymbol
  rw [if_neg (by omega)]

lemma validateQuantity_ok (q : ℚ) (h : 0 < q) : validateQuantity q = .ok q := by
  unfold validateQuantity
  rw [if_neg (not_le.mpr h)]

lemma validatePrice_ok (p : ℚ) (h : 0 < p) : validatePrice p = .ok p := by
  unfold validatePrice
  rw [if_neg (not_le.mpr h)]

lemma validateSymbol_cases (s : String) :
    validateSymbol s = .ok (pyUpper s) ∨
      ∃ m, validateSymbol s = .error (.validation m) := by
  unfold validateSymbol
  split
  · exact Or.inr ⟨_, rfl⟩
  · exact Or.inl rfl

lemma validateQuantity_cases (q : ℚ) :
    validateQuantity q = .ok q ∨ ∃ m, validateQuantity q = .error (.validation m) := by
  unfold validateQuantity
  split
  · exact Or.inr ⟨_, rfl⟩
  · exact Or.inl rfl

lemma validatePrice_cases (p : ℚ) :
    validatePrice p = .ok p ∨ ∃ m, validatePrice p = .error (.validation m) := by
  unfold validatePrice
  split
  · exact Or.inr ⟨_, rfl⟩
  · exact Or.inl rfl

/-- Rejection paths of `place_oco_order`: under the bracketing violation
the call ends in `ocoReject` with a validation error, whichever earlier
validation fires first. -/
lemma placeOco_bracket_reject (tpRes slRes : Except String Order) (now : Nat)
    (symbol : String) (side : Side) (quantity tp sl : ℚ) (tif : String)
    (hbad : (side = Side.BUY ∧ tp ≤ sl) ∨ (side = Side.SELL ∧ sl ≤ tp)) :
    ∃ msg, placeOcoOrder tpRes slRes now symbol side quantity tp sl tif
      = ocoReject (.validation msg) := by
  rcases validateSymbol_cases symbol with hs | ⟨m, hs⟩
  swap
  · exact ⟨m, by simp only [placeOcoOrder, hs]⟩
  rcases validateQuantity_cases quantity with hq | ⟨m, hq⟩
  swap
  · exact ⟨m, by simp only [placeOcoOrder, hs, hq]⟩
  rcases validatePrice_cases tp with htp | ⟨m, htp⟩
  swap
  · exact ⟨m, by simp only [placeOcoOrder, hs, hq, htp]⟩
  rcases validatePrice_cases sl with hsl | ⟨m, hsl⟩
  swap
  · exact ⟨m, by simp only [placeOcoOrder, hs, hq, htp, hsl]⟩
  by_cases htif : tif ∉ ["GTC", "IOC", "FOK"]
  · exact ⟨"time_in_force must be GTC, IOC, or FOK",
      by simp only [placeOcoOrder, hs, hq, htp, hsl, if_pos htif]⟩
  rcases hbad with ⟨hside, hle⟩ | ⟨hside, hle⟩ <;> subst hside
  · exact ⟨"For BUY orders: take_profit_price must be > stop_loss_price",
      by simp only [placeOcoOrder, hs, hq, htp, hsl, if_neg htif, if_pos hle]⟩
  · exact ⟨"For SELL orders: take_profit_price must be < stop_loss_price",
      by simp only [placeOcoOrder, hs, hq, htp, hsl, if_neg htif, if_pos hle]⟩

/-- C2 amended: a Gateway failure on either leg is fatal to the `place`
call — the error propagates, no OCOState is registered and no monitor is
started — but when the take-profit leg was placed before the stop-loss
leg's failure, that leg is left live on the exchange (it is not
canceled). -/
theorem oco_placement_failure_fatal (tpRes slRes : Except String Order) (now : Nat)
    (symbol : String) (side : Side) (quantity tp sl : ℚ) (tif : String)
    (hsym : 3 ≤ symbol.length) (hq : 0 < quantity) (htp : 0 < tp) (hsl : 0 < sl)
    (htif : tif ∈ ["GTC", "IOC", "FOK"])
    (hbr : (side = Side.BUY → sl < tp) ∧ (side = Side.SELL → tp < sl))
    (hfail : (∃ e, tpRes = .error e) ∨ (∃ e, slRes = .error e)) :
    ((placeOcoOrder tpRes slRes now symbol side quantity tp sl tif).registered = none ∧
     (placeOcoOrder tpRes slRes now symbol side quantity tp sl tif).monitorStarted = false) ∧
    (∀ e, tpRes = .error e →
      (placeOcoOrder tpRes slRes now symbol side quantity tp sl tif).result
          = .error (.exchange e) ∧
      (placeOcoOrder tpRes slRes now symbol side quantity tp sl tif).placedLegs = []) ∧
    (∀ o e, tpRes = .ok o → slRes = .error e →
      (placeOcoOrder tpRes slRes now symbol side quantity tp sl tif).result
          = .error (.exchange e) ∧
      (placeOcoOrder tpRes slRes now symbol side quantity tp sl tif).placedLegs = [o]) := by
  have hnot : ¬ tif ∉ ["GTC", "IOC", "FOK"] := not_not_intro htif
  have hmain : placeOcoOrder tpRes slRes now symbol side quantity tp sl tif
      = ocoPlaceLegs tpRes slRes now (pyUpper symbol) side := by
    cases side with
    | BUY =>
      simp only [placeOcoOrder, validateSymbol_ok symbol hsym, validateQuantity_ok quantity hq,
        validatePrice_ok tp htp, validatePrice_ok sl hsl, if_neg hnot,
        if_neg (not_le.mpr (hbr.1 rfl))]
    | SELL =>
      simp only [placeOcoOrder, validateSymbol_ok symbol hsym, validateQuantity_ok quantity hq,
        validatePrice_ok tp htp, validatePrice_ok sl hsl, if_neg hnot,
        if_neg (not_le.mpr (hbr.2 rfl))]
  rw [hmain]
  cases tpRes with
  | error e =>
    refine ⟨⟨rfl, rfl⟩, fun e' he => ?_, fun o e' ho he => ?_⟩
    · cases he
      exact ⟨rfl, rfl⟩
    · cases ho
  | ok tpo =>
    cases slRes with
    | error e =>
      refine ⟨⟨rfl, rfl⟩, fun e' he => ?_, fun o e' ho he => ?_⟩
      · cases he
      · cases ho
        cases he
        exact ⟨rfl, rfl⟩
    | ok slo =>
      rcases hfail with ⟨e, he⟩ | ⟨e, he⟩ <;> cases he

/-- C2 witness: the amended theorem applied to a concrete call where the
stop-loss leg's placement is rejected by the Gateway. -/
theorem oco_placement_failure_fatal_witness :
    (placeOcoOrder (.ok ⟨101⟩) (.error "margin") 0 "BTCUSDT" .BUY 1 110 90 "GTC").registered
        = none ∧
    (placeOcoOrder (.ok ⟨101⟩) (.error "margin") 0 "BTCUSDT" .BUY 1 110 90 "GTC").placedLegs
        = [⟨101⟩] := by
  have h := oco_placement_failure_fatal (.ok ⟨101⟩) (.error "margin") 0 "BTCUSDT" .BUY
    1 110 90 "GTC" (by decide) (by norm_num) (by norm_num) (by norm_num) (by decide)
    ⟨fun _ => by norm_num, fun h => by cases h⟩ (Or.inr ⟨"margin", rfl⟩)
  exact ⟨h.1.1, (h.2.2 ⟨101⟩ "margin" rfl rfl).2⟩

/-- C2 counterexample: with the take-profit leg accepted by the Gateway
and the stop-loss leg rejected, `place_oco_order` propagates the error,
registers nothing and starts no monitor — but the already-placed
take-profit leg stays live on the exchange (nothing in the failure path
cancels it), refuting "no single live leg remains working". -/
theorem oco_partial_leg_counterexample :
    (placeOcoOrder (.ok ⟨101⟩) (.error "margin") 0 "BTCUSDT" .BUY 1 110 90 "GTC").result
        = .error (.exchange "margin") ∧
    (placeOcoOrder (.ok ⟨101⟩) (.error "margin") 0 "BTCUSDT" .BUY 1 110 90 "GTC").registered
        = none ∧
    (placeOcoOrder (.ok ⟨101⟩) (.error "margin") 0 "BTCUSDT" .BUY 1 110 90 "GTC").monitorStarted
        = false ∧
    (placeOcoOrder (.ok ⟨101⟩) (.error "margin") 0 "BTCUSDT" .BUY 1 110 90 "GTC").placedLegs
        = [⟨101⟩] := by
  have hlen : ¬ ("BTCUSDT".length < 3) := by decide
  norm_num [placeOcoOrder, validateSymbol, validateQuantity, validatePrice, hlen,
    ocoPlaceLegs, ocoReject]

/-- C5: an OCO order whose prices violate the bracketing rule — BUY with
takeProfitPrice ≤ stopLossPrice, or SELL with takeProfitPrice ≥
stopLossPrice — is rejected with a ValidationError before any Gateway
call: nothing is placed, registered or monitored, whatever the Gateway
would have answered. -/
theorem oco_bracket_rejected (tpRes slRes : Except String Order) (now : Nat)
    (symbol : String) (side : Side) (quantity tp sl : ℚ) (tif : String)
    (hbad : (side = Side.BUY ∧ tp ≤ sl) ∨ (side = Side.SELL ∧ sl ≤ tp)) :
    (∃ msg, (placeOcoOrder tpRes slRes now symbol side quantity tp sl tif).result
        = .error (.validation msg)) ∧
    (placeOcoOrder tpRes slRes now symbol side quantity tp sl tif).placedLegs = [] ∧
    (placeOcoOrder tpRes slRes now symbol side quantity tp sl tif).registered = none ∧
    (placeOcoOrder tpRes slRes now symbol side quantity tp sl tif).monitorStarted = false := by
  obtain ⟨msg, hmsg⟩ :=
    placeOco_bracket_reject tpRes slRes now symbol side quantity tp sl tif hbad
  rw [hmsg]
  exact ⟨⟨msg, rfl⟩, rfl, rfl, rfl⟩

/-- C5 witness: a concrete BUY OCO with takeProfitPrice 90 ≤ stopLossPrice
110 is rejected with no Gateway call made. -/
theorem oco_bracket_rejected_witness :
    (∃ msg, (placeOcoOrder (.ok ⟨1⟩) (.ok ⟨2⟩) 0 "BTCUSDT" .BUY 1 90 110 "GTC").result
        = .error (.validation msg)) ∧
    (placeOcoOrder (.ok ⟨1⟩) (.ok ⟨2⟩) 0 "BTCUSDT" .BUY 1 90 110 "GTC").placedLegs = [] ∧
    (placeOcoOrder (.ok ⟨1⟩) (.ok ⟨2⟩) 0 "BTCUSDT" .BUY 1 90 110 "GTC").registered = none ∧
    (placeOcoOrder (.ok ⟨1⟩) (.ok ⟨2⟩) 0 "BTCUSDT" .BUY 1 90 110 "GTC").monitorStarted = false :=
  oco_bracket_rejected (.ok ⟨1⟩) (.ok ⟨2⟩) 0 "BTCUSDT" .BUY 1 90 110 "GTC"
    (Or.inl ⟨rfl, by norm_num⟩)


/-- C1 (code-bug evidence): an external `cancel_twap_order` observed at
the boundary before slice 2 of a 2-slice TWAP stops the loop (only one
slice executed, half the quantity remaining), yet the unconditional final
assignment of `_execute_twap_slices` (twap.py:182-183) leaves the status
COMPLETED — not CANCELED — and restamps `end_time` with the loop-exit
instant. -/
theorem twap_cancel_overwritten_to_completed :
    (executeTwapOrder (fun i => .ok ⟨i⟩) (fun i => if i = 1 then some 77 else none)
        0 120 "BTCUSDT" .BUY 1 2 (some 2) .MARKET none).toOption.map
      (fun r => (r.1, r.2.executedOrders.length, r.2.remainingQuantity,
                 decide (r.2.status = .COMPLETED), decide (r.2.status = .CANCELED),
                 r.2.endTime))
      = some ("TWAP_BTCUSDT_0", 1, 1/2, true, false, 120) := by
  have h2 : List.range 2 = [0, 1] := rfl
  have hup : pyUpper "BTCUSDT" = "BTCUSDT" := by decide
  have hne : TwapStatus.CANCELED ≠ TwapStatus.ACTIVE := by decide
  have hlen : ¬ ("BTCUSDT".length < 3) := by decide
  have hid : twapStrategyId "BTCUSDT" 0 = "TWAP_BTCUSDT_0" := by decide
  norm_num [executeTwapOrder, validateSymbol, validateQuantity, validateLimitPrice,
    executeTwapSlices, h2, hup, hne, hlen, hid, twapRun, twapPlaceSlice, cancelTwap]
  exact ⟨_, _, rfl, rfl, rfl, rfl, rfl, by decide, rfl⟩

/-- C9 counterexample: the OCO strategy id generated by `place_oco_order`
(oco.py:93) for symbol BTCUSDT at epoch second 1700000000 is not of the
form `{PREFIX}_{symbol}_{epoch}` for any prefix string. -/
theorem oco_id_missing_prefix_counterexample :
    ¬ ∃ p : String, ocoStrategyId "BTCUSDT" 1700000000
      = p ++ "_" ++ "BTCUSDT" ++ "_" ++ toString 1700000000 := by
  rintro ⟨p, h⟩
  have hl := congrArg String.length h
  simp only [ocoStrategyId, String.length_append] at hl
  have h2 : ("_").length = 1 := rfl
  omega

/-- C9 amended: grid and TWAP ids have the `{PREFIX}_{symbol}_{epoch}`
form with family prefixes GRID and TWAP, while the OCO id is
`{symbol}_{epoch}` and never of the prefixed form. -/
theorem strategy_id_formats :
    ∀ (symbol : String) (now : Nat),
      gridStrategyId symbol now = "GRID_" ++ symbol ++ "_" ++ toString now ∧
      twapStrategyId symbol now = "TWAP_" ++ symbol ++ "_" ++ toString now ∧
      ∀ p : String, ocoStrategyId symbol now ≠ p ++ "_" ++ symbol ++ "_" ++ toString now := by
  intro symbol now
  refine ⟨rfl, rfl, fun p h => ?_⟩
  have hl := congrArg String.length h
  simp only [ocoStrategyId, String.length_append] at hl
  have h2 : ("_").length = 1 := rfl
  omega

lemma mem_refreshFilledOrders (statusOf : Order → Option OrderStatus)
    (placed : List PlacedOrder) (filled : List PlacedOrder) (x : PlacedOrder)
    (hx : x ∈ filled) : x ∈ refreshFilledOrders statusOf placed filled := by
  induction placed generalizing filled with
  | nil => exact hx
  | cons oi rest ih =>
    simp only [refreshFilledOrders]
    apply ih
    cases h : statusOf oi.order with
    | none => exact hx
    | some s =>
      cases s <;> simp only []
      case FILLED =>
        by_cases hmem : oi ∈ filled
        · simpa [hmem] using hx
        · simp only [if_neg hmem]
          exact List.mem_append_left _ hx
      all_goals exact hx

lemma refresh_adds (statusOf : Order → Option OrderStatus)
    (placed : List PlacedOrder) (filled : List PlacedOrder) :
    ∀ x ∈ placed, statusOf x.order = some .FILLED →
      x ∈ refreshFilledOrders statusOf placed filled := by
  induction placed generalizing filled with
  | nil => intro x hx; cases hx
  | cons oi rest ih =>
    intro x hx hf
    rcases List.mem_cons.mp hx with rfl | hx
    · simp only [refreshFilledOrders, hf]
      apply mem_refreshFilledOrders
      by_cases hmem : x ∈ filled
      · simp [hmem]
      · simp [hmem]
    · exact ih _ x hx hf

lemma refresh_no_new (statusOf : Order → Option OrderStatus)
    (placed : List PlacedOrder) (filled : List PlacedOrder)
    (h : ∀ x ∈ placed, statusOf x.order = some .FILLED → x ∈ filled) :
    refreshFilledOrders statusOf placed filled = filled := by
  induction placed with
  | nil => rfl
  | cons oi rest ih =>
    simp only [refreshFilledOrders]
    have hoi : ∀ s, statusOf oi.order = s →
        (match s with
         | some OrderStatus.FILLED => if oi ∈ filled then filled else filled ++ [oi]
         | _ => filled) = filled := by
      intro s hs
      cases s with
      | none => rfl
      | some st =>
        cases st <;> try rfl
        case FILLED => exact if_pos (h oi (List.mem_cons_self oi rest) hs)
    rw [hoi _ rfl]
    exact ih (fun x hx hf => h x (List.mem_cons_of_mem _ hx) hf)

lemma refresh_nodup (statusOf : Order → Option OrderStatus)
    (placed : List PlacedOrder) (filled : List PlacedOrder) (h : filled.Nodup) :
    (refreshFilledOrders statusOf placed filled).Nodup := by
  induction placed generalizing filled with
  | nil => exact h
  | cons oi rest ih =>
    simp only [refreshFilledOrders]
    apply ih
    cases statusOf oi.order with
    | none => exact h
    | some s =>
      cases s <;> try exact h
      case FILLED =>
        by_cases hmem : oi ∈ filled
        · simpa [hmem]
        · simp only [if_neg hmem]
          simp [List.nodup_append, h, hmem]

/-- C8: refreshing a grid's status twice against unchanged Gateway order
statuses yields the same filled-order set as refreshing once — a FILLED
order is appended only when not already present — and the refresh never
introduces duplicates into a duplicate-free filled set. -/
theorem grid_refresh_idempotent (statusOf : Order → Option OrderStatus) (g : GridState) :
    (getGridStatus statusOf (getGridStatus statusOf g).1).1.filledOrders
      = (getGridStatus statusOf g).1.filledOrders ∧
    (g.filledOrders.Nodup → (getGridStatus statusOf g).1.filledOrders.Nodup) := by
  constructor
  · simp only [getGridStatus]
    exact refresh_no_new statusOf g.placedOrders _
      (fun x hx hf => refresh_adds statusOf g.placedOrders g.filledOrders x hx hf)
  · intro h
    exact refresh_nodup statusOf g.placedOrders g.filledOrders h

lemma placeGridLevels_length (gw : Nat → Except String Order) (t0 : Nat)
    (l : List (Nat × GridLevel)) :
    (placeGridLevels gw t0 l).1.length + (placeGridLevels gw t0 l).2.length = l.length := by
  induction l with
  | nil => rfl
  | cons p rest ih =>
    obtain ⟨i, lv⟩ := p
    simp only [placeGridLevels]
    cases gw i <;> simp only [List.length_cons] <;> omega

/-- C10: `execute_grid_orders` enforces no status precondition — for any
registry record, whatever its current status, it attempts every grid
level again, appends the new placements to the existing `placed_orders`,
and leaves the status ACTIVE; executing twice therefore accumulates both
executions' placements. -/
theorem execute_grid_no_precondition (gw gw2 : Nat → Except String Order) (t0 t1 : Nat)
    (g : GridState) (s : GridStatus) :
    (executeGridOrders gw t0 g).1.status = .ACTIVE ∧
    (executeGridOrders gw t0 g).1.gridLevels = g.gridLevels ∧
    (executeGridOrders gw t0 g).1.placedOrders
      = g.placedOrders ++ (executeGridOrders gw t0 g).2.1 ∧
    (executeGridOrders gw t0 g).2.1.length + (executeGridOrders gw t0 g).2.2.length
      = g.gridLevels.length ∧
    executeGridOrders gw t0 { g with status := s } = executeGridOrders gw t0 g ∧
    (executeGridOrders gw2 t1 (executeGridOrders gw t0 g).1).1.placedOrders
      = g.placedOrders ++ (executeGridOrders gw t0 g).2.1
          ++ (executeGridOrders gw2 t1 (executeGridOrders gw t0 g).1).2.1 := by
  refine ⟨rfl, rfl, rfl, ?_, rfl, ?_⟩
  · simpa using placeGridLevels_length gw t0 g.gridLevels.enum
  · rfl

/-- Success shape of `create_grid_strategy` with omitted `price_step` and
at least two orders: the validations pass and the registry record carries
the automatically computed step and the generated levels. -/
lemma createGridStrategy_eq_ok (mexp mlog : ℚ → ℚ) (now : Nat) (symbol : String)
    (side : Side) (qty lower upper : ℚ) (n : Nat) (gt : GridType)
    (hsym : 3 ≤ symbol.length) (hq : 0 < qty) (hl : 0 < lower) (hlu : lower < upper)
    (hn : 2 ≤ n) :
    createGridStrategy mexp mlog now symbol side qty lower upper n gt none
      = .ok (gridStrategyId (pyUpper symbol) now,
        { symbol := pyUpper symbol
          side := side
          quantityPerOrder := qty
          lowerPrice := lower
          upperPrice := upper
          numOrders := n
          gridType := gt
          priceStep := (match gt with
            | .LINEAR => (upper - lower) / ((n : ℚ) - 1)
            | .LOGARITHMIC => (mlog upper - mlog lower) / ((n : ℚ) - 1))
          gridLevels := gridLevels mexp side qty lower
            (match gt with
              | .LINEAR => (upper - lower) / ((n : ℚ) - 1)
              | .LOGARITHMIC => (mlog upper - mlog lower) / ((n : ℚ) - 1)) n gt
          status := .CONFIGURED
          placedOrders := []
          filledOrders := [] }) := by
  have hup : (0:ℚ) < upper := hl.trans hlu
  have h0 : ¬ (n = 0) := by omega
  have h1 : ¬ (n = 1) := by omega
  cases gt <;>
    simp only [createGridStrategy, validateSymbol_ok symbol hsym,
      validateQuantity_ok qty hq, validatePrice_ok lower hl, validatePrice_ok upper hup,
      if_neg (not_le.mpr hlu), if_neg h0, if_neg h1]

/-- Failure shape of `create_grid_strategy` with omitted `price_step` and
exactly one order: the step computation divides by zero. -/
lemma createGridStrategy_one_order (mexp mlog : ℚ → ℚ) (now : Nat) (symbol : String)
    (side : Side) (qty lower upper : ℚ) (gt : GridType)
    (hsym : 3 ≤ symbol.length) (hq : 0 < qty) (hl : 0 < lower) (hlu : lower < upper) :
    createGridStrategy mexp mlog now symbol side qty lower upper 1 gt none
      = .error .zeroDivision := by
  have hup : (0:ℚ) < upper := hl.trans hlu
  simp only [createGridStrategy, validateSymbol_ok symbol hsym,
    validateQuantity_ok qty hq, validatePrice_ok lower hl, validatePrice_ok upper hup,
    if_neg (not_le.mpr hlu)]
  norm_num

lemma gridLevels_length (mexp : ℚ → ℚ) (side : Side) (qty lower step : ℚ)
    (n : Nat) (gt : GridType) :
    (gridLevels mexp side qty lower step n gt).length = n := by
  simp [gridLevels]

lemma gridLevels_getElem (mexp : ℚ → ℚ) (side : Side) (qty lower step : ℚ)
    (n : Nat) (gt : GridType) (i : Nat) (h : i < n) :
    (gridLevels mexp side qty lower step n gt)[i]? = some
      { level := i + 1
        price := round8 (gridRawPrice mexp gt lower step i)
        side := gridLevelSide side n i
        quantity := qty } := by
  simp [gridLevels, List.getElem?_map, List.getElem?_range h]

lemma range_filter_lt_length (n k : Nat) (h : k ≤ n) :
    ((List.range n).filter (fun i => decide (i < k))).length = k := by
  induction n with
  | zero =>
    simp only [List.range_zero, List.filter_nil, List.length_nil]
    omega
  | succ n ih =>
    rw [List.range_succ, List.filter_append]
    by_cases hk : k = n + 1
    · subst hk
      have hall : (List.range n).filter (fun i => decide (i < n + 1)) = List.range n :=
        List.filter_eq_self.mpr (fun a ha => by
          simpa using Nat.lt_succ_of_lt (List.mem_range.mp ha))
      rw [hall]
      simp
    · have hkn : k ≤ n := by omega
      have hn : ¬ (n < k) := by omega
      rw [List.length_append, ih hkn]
      simp [hn]

lemma gridLevelSide_eq_primary_iff (side : Side) (n i : Nat) :
    (gridLevelSide side n i = side) ↔ i < n / 2 := by
  cases side <;> simp only [gridLevelSide] <;> split <;> simp_all

lemma gridLevels_low_side_count (mexp : ℚ → ℚ) (side : Side) (qty lower step : ℚ)
    (n : Nat) (gt : GridType) :
    ((gridLevels mexp side qty lower step n gt).filter (fun lv => lv.side = side)).length
      = n / 2 := by
  unfold gridLevels
  rw [List.filter_map]
  rw [List.length_map]
  have hp : ((fun lv : GridLevel => decide (lv.side = side)) ∘
      (fun i => GridLevel.mk (i + 1) (round8 (gridRawPrice mexp gt lower step i))
        (gridLevelSide side n i) qty))
      = fun i => decide (i < n / 2) := by
    funext i
    simp [decide_eq_decide, gridLevelSide_eq_primary_iff]
  rw [hp, range_filter_lt_length n (n / 2) (Nat.div_le_self n 2)]

lemma gridRawPrice_linear_first (mexp : ℚ → ℚ) (lower step : ℚ) :
    gridRawPrice mexp .LINEAR lower step 0 = lower := by
  simp [gridRawPrice]

lemma gridRawPrice_linear_last (mexp : ℚ → ℚ) (lower upper : ℚ) (n : Nat) (hn : 2 ≤ n) :
    gridRawPrice mexp .LINEAR lower ((upper - lower) / ((n : ℚ) - 1)) (n - 1) = upper := by
  simp only [gridRawPrice]
  have hone : (1:ℕ) ≤ n := by omega
  have hcast : ((n - 1 : Nat) : ℚ) = (n : ℚ) - 1 := by
    push_cast [Nat.cast_sub hone]
    ring
  have hne : ((n : ℚ) - 1) ≠ 0 := by
    have h2 : (2:ℚ) ≤ (n : ℚ) := by exact_mod_cast hn
    intro h
    rw [sub_eq_zero] at h
    rw [h] at h2
    norm_num at h2
  rw [hcast]
  field_simp

lemma gridRawPrice_linear_step (mexp : ℚ → ℚ) (lower step : ℚ) (i : Nat) :
    gridRawPrice mexp .LINEAR lower step (i + 1) - gridRawPrice mexp .LINEAR lower step i
      = step := by
  simp only [gridRawPrice]
  push_cast
  ring

/-- C6 counterexample: `create_grid_strategy` with `orderCount = 1` and
omitted `priceStep` fails with Python's `ZeroDivisionError` — the
division in the automatic step computation is not guarded. -/
theorem grid_step_div_zero_counterexample :
    createGridStrategy (fun q => q) (fun q => q) 0 "BTCUSDT" .BUY 1 95 105 1 .LINEAR none
      = .error .zeroDivision :=
  createGridStrategy_one_order (fun q => q) (fun q => q) 0 "BTCUSDT" .BUY 1 95 105
    .LINEAR (by decide) (by norm_num) (by norm_num) (by norm_num)

/-- C6 amended: with `priceStep` omitted the step is
`(upperPrice - lowerPrice)/(orderCount - 1)` for LINEAR and
`(log upperPrice - log lowerPrice)/(orderCount - 1)` for LOGARITHMIC,
but the division is not guarded: `orderCount = 1` with omitted
`priceStep` fails with a division-by-zero error. -/
theorem grid_price_step_formula (mexp mlog : ℚ → ℚ) (now : Nat) (symbol : String)
    (side : Side) (qty lower upper : ℚ) (n : Nat)
    (hsym : 3 ≤ symbol.length) (hq : 0 < qty) (hl : 0 < lower) (hlu : lower < upper) :
    (∀ gt, createGridStrategy mexp mlog now symbol side qty lower upper 1 gt none
        = .error .zeroDivision) ∧
    (2 ≤ n → ∃ gLin gLog : GridState,
      createGridStrategy mexp mlog now symbol side qty lower upper n .LINEAR none
        = .ok (gridStrategyId (pyUpper symbol) now, gLin) ∧
      gLin.priceStep = (upper - lower) / ((n : ℚ) - 1) ∧
      createGridStrategy mexp mlog now symbol side qty lower upper n .LOGARITHMIC none
        = .ok (gridStrategyId (pyUpper symbol) now, gLog) ∧
      gLog.priceStep = (mlog upper - mlog lower) / ((n : ℚ) - 1)) := by
  refine ⟨fun gt => createGridStrategy_one_order mexp mlog now symbol side qty lower
    upper gt hsym hq hl hlu, fun hn => ?_⟩
  exact ⟨_, _,
    createGridStrategy_eq_ok mexp mlog now symbol side qty lower upper n .LINEAR
      hsym hq hl hlu hn, rfl,
    createGridStrategy_eq_ok mexp mlog now symbol side qty lower upper n .LOGARITHMIC
      hsym hq hl hlu hn, rfl⟩

/-- C6 witness: concrete calls — one order fails with division by zero,
five orders over [95, 105] get the automatic LINEAR step 5/2. -/
theorem grid_price_step_formula_witness :
    createGridStrategy (fun q => q) (fun q => q) 0 "BTCUSDT" .BUY 1 95 105 1 .LINEAR none
        = .error .zeroDivision ∧
    ∃ g : GridState,
      createGridStrategy (fun q => q) (fun q => q) 0 "BTCUSDT" .BUY 1 95 105 5 .LINEAR none
        = .ok (gridStrategyId "BTCUSDT" 0, g) ∧ g.priceStep = 5/2 := by
  have h := grid_price_step_formula (fun q => q) (fun q => q) 0 "BTCUSDT" .BUY 1 95 105 5
    (by decide) (by norm_num) (by norm_num) (by norm_num)
  obtain ⟨gLin, gLog, hLin, hstep, hLog, hstepLog⟩ := h.2 (by norm_num)
  have hup : pyUpper "BTCUSDT" = "BTCUSDT" := by decide
  refine ⟨h.1 .LINEAR, gLin, ?_, ?_⟩
  · rw [hLin, hup]
  · rw [hstep]
    norm_num

/-- C3 counterexample: for the valid LINEAR grid (95, 105, 4) with omitted
step, the generated (8-decimal-rounded) prices are
[95, 98.33333333, 101.66666667, 105], whose consecutive differences
differ — the emitted prices do not form an arithmetic sequence. -/
theorem grid_rounding_counterexample :
    ((createGridStrategy (fun q => q) (fun q => q) 0 "BTCUSDT" .BUY (1/100) 95 105 4
        .LINEAR none).map (fun r => r.2.gridLevels.map GridLevel.price)
      = .ok [95, 9833333333/100000000, 10166666667/100000000, 105]) ∧
    ((9833333333/100000000 : ℚ) - 95 ≠ (10166666667/100000000 : ℚ) - 9833333333/100000000) := by
  constructor
  · rw [createGridStrategy_eq_ok (fun q => q) (fun q => q) 0 "BTCUSDT" .BUY (1/100)
      95 105 4 .LINEAR (by decide) (by norm_num) (by norm_num) (by norm_num) (by norm_num)]
    have h4 : List.range 4 = [0, 1, 2, 3] := rfl
    have hf1 : Int.fract ((29500000000 : ℚ)/3) = 1/3 := by
      unfold Int.fract
      norm_num
    have hf2 : Int.fract ((30500000000 : ℚ)/3) = 2/3 := by
      unfold Int.fract
      norm_num
    norm_num [Except.map, gridLevels, h4, gridRawPrice, round8, roundHalfEven, hf1, hf2]
  · norm_num

/-- C3 amended: for every valid LINEAR grid with omitted step and at least
two orders, the emitted prices are the 8-decimal roundings of the exact
arithmetic sequence `lower + i*step` (which runs from `lowerPrice` to
`upperPrice` inclusive with constant difference `step`), there are exactly
`orderCount` levels, exactly `orderCount / 2` of them take the primary
(low) side and the rest the opposite side; in particular
`createPlan("BTCUSDT","BUY",0.01,95,105,5,LINEAR)` yields prices
[95, 97.5, 100, 102.5, 105] with sides [BUY, BUY, SELL, SELL, SELL]. -/
theorem grid_linear_levels_plan (mexp mlog : ℚ → ℚ) (now : Nat) (symbol : String)
    (side : Side) (qty lower upper : ℚ) (n : Nat)
    (hsym : 3 ≤ symbol.length) (hq : 0 < qty) (hl : 0 < lower) (hlu : lower < upper)
    (hn : 2 ≤ n) :
    (∃ g : GridState,
      createGridStrategy mexp mlog now symbol side qty lower upper n .LINEAR none
        = .ok (gridStrategyId (pyUpper symbol) now, g) ∧
      g.gridLevels.length = n ∧
      (∀ i, i < n → g.gridLevels[i]? = some
        { level := i + 1
          price := round8 (gridRawPrice mexp .LINEAR lower ((upper - lower) / ((n : ℚ) - 1)) i)
          side := gridLevelSide side n i
          quantity := qty }) ∧
      ((g.gridLevels.filter (fun lv => lv.side = side)).length = n / 2)) ∧
    gridRawPrice mexp .LINEAR lower ((upper - lower) / ((n : ℚ) - 1)) 0 = lower ∧
    gridRawPrice mexp .LINEAR lower ((upper - lower) / ((n : ℚ) - 1)) (n - 1) = upper ∧
    (∀ i : Nat, gridRawPrice mexp .LINEAR lower ((upper - lower) / ((n : ℚ) - 1)) (i + 1)
        - gridRawPrice mexp .LINEAR lower ((upper - lower) / ((n : ℚ) - 1)) i
        = (upper - lower) / ((n : ℚ) - 1)) ∧
    ((createGridStrategy (fun q => q) (fun q => q) 0 "BTCUSDT" .BUY (1/100) 95 105 5
        .LINEAR none).map (fun r => r.2.gridLevels.map (fun lv => (lv.price, lv.side)))
      = .ok [(95, .BUY), (195/2, .BUY), (100, .SELL), (205/2, .SELL), (105, .SELL)]) := by
  refine ⟨⟨_, createGridStrategy_eq_ok mexp mlog now symbol side qty lower upper n
      .LINEAR hsym hq hl hlu hn,
      gridLevels_length mexp side qty lower _ n .LINEAR,
      fun i hi => gridLevels_getElem mexp side qty lower _ n .LINEAR i hi,
      gridLevels_low_side_count mexp side qty lower _ n .LINEAR⟩,
    gridRawPrice_linear_first mexp lower _,
    gridRawPrice_linear_last mexp lower upper n hn,
    fun i => gridRawPrice_linear_step mexp lower _ i, ?_⟩
  rw [createGridStrategy_eq_ok (fun q => q) (fun q => q) 0 "BTCUSDT" .BUY (1/100)
    95 105 5 .LINEAR (by decide) (by norm_num) (by norm_num) (by norm_num) (by norm_num)]
  have h5 : List.range 5 = [0, 1, 2, 3, 4] := rfl
  norm_num [Except.map, gridLevels, h5, gridRawPrice, gridLevelSide, round8, roundHalfEven]

/-- C3 witness: the amended theorem applied to a concrete SELL grid of 4
orders over [10, 20]: creation succeeds, 4 levels are generated, and
4 / 2 = 2 of them take the primary (SELL) side. -/
theorem grid_linear_levels_plan_witness :
    ∃ g : GridState,
      createGridStrategy (fun q => q) (fun q => q) 7 "ETHUSDT" .SELL 1 10 20 4 .LINEAR none
        = .ok (gridStrategyId "ETHUSDT" 7, g) ∧
      g.gridLevels.length = 4 ∧
      (g.gridLevels.filter (fun lv => lv.side = .SELL)).length = 2 := by
  obtain ⟨⟨g, hg, hlen, _, hcount⟩, _⟩ := grid_linear_levels_plan (fun q => q) (fun q => q)
    7 "ETHUSDT" .SELL 1 10 20 4 (by decide) (by norm_num) (by norm_num) (by norm_num)
    (by norm_num)
  have hup : pyUpper "ETHUSDT" = "ETHUSDT" := by decide
  rw [hup] at hg
  exact ⟨g, hg, hlen, hcount⟩

lemma exists_ok_of_isOk {e : Except String Order} (h : e.isOk) : ∃ o, e = .ok o := by
  cases e with
  | ok o => exact ⟨o, rfl⟩
  | error _ => simp [Except.isOk, Except.toBool] at h

lemma twapPlaceSlice_status (gw : Nat → Except String Order) (i : Nat) (q : ℚ)
    (st : TwapState) : (twapPlaceSlice gw i q st).status = st.status := by
  unfold twapPlaceSlice
  cases gw i <;> rfl

lemma twapPlaceSlice_exec_mem (gw : Nat → Except String Order) (i : Nat) (q : ℚ)
    (st : TwapState) (x : TwapSlice) (hx : x ∈ st.executedOrders) :
    x ∈ (twapPlaceSlice gw i q st).executedOrders := by
  unfold twapPlaceSlice
  cases gw i
  · exact hx
  · exact List.mem_append_left _ hx

lemma twapPlaceSlice_failed_mem (gw : Nat → Except String Order) (i : Nat) (q : ℚ)
    (st : TwapState) (x : TwapFailure) (hx : x ∈ st.failedOrders) :
    x ∈ (twapPlaceSlice gw i q st).failedOrders := by
  unfold twapPlaceSlice
  cases gw i
  · exact List.mem_append_left _ hx
  · exact hx

lemma twapRun_mono (gw : Nat → Except String Order) (cancelAt : Nat → Option Nat)
    (n : Nat) (l : List Nat) : ∀ st : TwapState,
    (∀ x ∈ st.executedOrders, x ∈ (twapRun gw cancelAt n l st).executedOrders) ∧
    (∀ x ∈ st.failedOrders, x ∈ (twapRun gw cancelAt n l st).failedOrders) := by
  induction l with
  | nil => exact fun st => ⟨fun x hx => hx, fun x hx => hx⟩
  | cons i rest ih =>
    intro st
    cases hc : cancelAt i <;>
      simp only [twapRun, hc] <;>
      refine ⟨fun x hx => ?_, fun x hx => ?_⟩ <;>
      split <;>
      (try split) <;>
      (try split) <;>
      first
        | exact hx
        | exact (ih _).1 x (twapPlaceSlice_exec_mem gw i _ _ x hx)
        | exact (ih _).2 x (twapPlaceSlice_failed_mem gw i _ _ x hx)

/-- Field behaviour of one slice placement. -/
lemma twapPlaceSlice_numSlices (gw : Nat → Except String Order) (i : Nat) (q : ℚ)
    (st : TwapState) : (twapPlaceSlice gw i q st).numSlices = st.numSlices := by
  unfold twapPlaceSlice
  cases gw i <;> rfl

lemma twapPlaceSlice_sliceQuantity (gw : Nat → Except String Order) (i : Nat) (q : ℚ)
    (st : TwapState) : (twapPlaceSlice gw i q st).sliceQuantity = st.sliceQuantity := by
  unfold twapPlaceSlice
  cases gw i <;> rfl

lemma twapPlaceSlice_rem_ok (gw : Nat → Except String Order) (i : Nat) (q : ℚ)
    (st : TwapState) (o : Order) (ho : gw i = .ok o) :
    (twapPlaceSlice gw i q st).remainingQuantity = st.remainingQuantity - q := by
  unfold twapPlaceSlice
  rw [ho]

lemma twapPlaceSlice_exec_ok (gw : Nat → Except String Order) (i : Nat) (q : ℚ)
    (st : TwapState) (o : Order) (ho : gw i = .ok o) :
    (twapPlaceSlice gw i q st).executedOrders = st.executedOrders ++ [⟨i + 1, q, o⟩] := by
  unfold twapPlaceSlice
  rw [ho]

lemma twapPlaceSlice_failed_ok (gw : Nat → Except String Order) (i : Nat) (q : ℚ)
    (st : TwapState) (o : Order) (ho : gw i = .ok o) :
    (twapPlaceSlice gw i q st).failedOrders = st.failedOrders := by
  unfold twapPlaceSlice
  rw [ho]

lemma twapPlaceSlice_rem_error (gw : Nat → Except String Order) (i : Nat) (q : ℚ)
    (st : TwapState) (e : String) (he : gw i = .error e) :
    (twapPlaceSlice gw i q st).remainingQuantity = st.remainingQuantity := by
  unfold twapPlaceSlice
  rw [he]

lemma twapPlaceSlice_exec_error (gw : Nat → Except String Order) (i : Nat) (q : ℚ)
    (st : TwapState) (e : String) (he : gw i = .error e) :
    (twapPlaceSlice gw i q st).executedOrders = st.executedOrders := by
  unfold twapPlaceSlice
  rw [he]

lemma twapPlaceSlice_failed_error (gw : Nat → Except String Order) (i : Nat) (q : ℚ)
    (st : TwapState) (e : String) (he : gw i = .error e) :
    (twapPlaceSlice gw i q st).failedOrders = st.failedOrders ++ [⟨i + 1, q, e⟩] := by
  unfold twapPlaceSlice
  rw [he]

/-- All-success run of the TWAP slicing loop: starting at slice `i` with
the remaining quantity exactly `(n - i)` nominal slices, the loop places
every remaining slice, ends with zero remaining quantity, and records no
failure. -/
lemma twapRun_all_ok (gw : Nat → Except String Order) (cancelAt : Nat → Option Nat)
    (n : Nat) (total : ℚ) (htot : 0 < total) (hn : 0 < n)
    (hok : ∀ i, (gw i).isOk) (hnc : ∀ i, cancelAt i = none) :
    ∀ (k i : Nat) (st : TwapState), i + k = n →
      st.status = .ACTIVE → st.numSlices = n → st.sliceQuantity = total / n →
      st.remainingQuantity = ((n : ℚ) - i) * (total / n) →
      (twapRun gw cancelAt n (List.range' i k) st).remainingQuantity = 0 ∧
      ((twapRun gw cancelAt n (List.range' i k) st).executedOrders.map
          TwapSlice.quantity).sum
        = (st.executedOrders.map TwapSlice.quantity).sum + st.remainingQuantity ∧
      (twapRun gw cancelAt n (List.range' i k) st).executedOrders.length
        = st.executedOrders.length + k ∧
      (twapRun gw cancelAt n (List.range' i k) st).failedOrders = st.failedOrders := by
  intro k
  induction k with
  | zero =>
    intro i st hik hact hns hsq hrem
    have hin : i = n := by omega
    have hz : ((n : ℚ) - i) = 0 := by
      rw [hin]
      ring
    simp only [List.range', twapRun]
    refine ⟨by rw [hrem, hz, zero_mul], by rw [hrem, hz, zero_mul, add_zero], by omega, trivial⟩
  | succ k ih =>
    intro i st hik hact hns hsq hrem
    have hnq : (0 : ℚ) < total / n := by
      apply div_pos htot
      exact_mod_cast hn
    have hilt : i < n := by omega
    have hremq : (0 : ℚ) < st.remainingQuantity := by
      rw [hrem]
      apply mul_pos _ hnq
      have : (i : ℚ) < (n : ℚ) := by exact_mod_cast hilt
      linarith
    obtain ⟨o, ho⟩ := exists_ok_of_isOk (hok i)
    rw [List.range'_succ]
    by_cases hlast : i = n - 1
    · have hk0 : k = 0 := by omega
      subst hk0
      simp only [twapRun, hnc i]
      rw [if_pos hact, if_pos hlast, if_neg (not_le.mpr hremq)]
      refine ⟨?_, ?_, ?_, ?_⟩
      · rw [twapPlaceSlice_rem_ok gw i _ st o ho]
        ring
      · rw [twapPlaceSlice_exec_ok gw i _ st o ho]
        simp [List.sum_append]
      · rw [twapPlaceSlice_exec_ok gw i _ st o ho]
        simp only [List.length_append, List.length_cons, List.length_nil]
        try omega
      · exact twapPlaceSlice_failed_ok gw i _ st o ho
    · have hq0 : ¬ st.sliceQuantity ≤ 0 := by
        rw [hsq]
        exact not_le.mpr hnq
      simp only [twapRun, hnc i]
      rw [if_pos hact, if_neg hlast, if_neg hq0]
      obtain ⟨h1, h2, h3, h4⟩ := ih (i + 1) (twapPlaceSlice gw i st.sliceQuantity st)
        (by omega)
        ((twapPlaceSlice_status gw i _ st).trans hact)
        ((twapPlaceSlice_numSlices gw i _ st).trans hns)
        ((twapPlaceSlice_sliceQuantity gw i _ st).trans hsq)
        (by
          rw [twapPlaceSlice_rem_ok gw i _ st o ho, hrem, hsq]
          push_cast
          ring)
      refine ⟨h1, ?_, ?_, ?_⟩
      · rw [h2, twapPlaceSlice_exec_ok gw i _ st o ho, twapPlaceSlice_rem_ok gw i _ st o ho]
        simp only [List.map_append, List.sum_append, List.map_cons, List.map_nil,
          List.sum_cons, List.sum_nil]
        ring
      · rw [h3, twapPlaceSlice_exec_ok gw i _ st o ho]
        simp only [List.length_append, List.length_cons, List.length_nil]
        omega
      · rw [h4]
        exact twapPlaceSlice_failed_ok gw i _ st o ho

/-- General run of the TWAP slicing loop with no external cancel: quantity
is conserved between executed slices and the remaining quantity, every
remaining slice index is attempted and recorded according to its Gateway
outcome, and every executed entry traces back to a successful Gateway
call for its slice. -/
lemma twapRun_attempts (gw : Nat → Except String Order) (cancelAt : Nat → Option Nat)
    (n : Nat) (total : ℚ) (htot : 0 < total) (hn : 0 < n)
    (hnc : ∀ i, cancelAt i = none) :
    ∀ (k i : Nat) (st : TwapState), i + k = n →
      st.status = .ACTIVE → st.numSlices = n → st.sliceQuantity = total / n →
      (∃ m : Nat, m ≤ i ∧ st.remainingQuantity = ((n : ℚ) - m) * (total / n)) →
      (((twapRun gw cancelAt n (List.range' i k) st).executedOrders.map
            TwapSlice.quantity).sum
          + (twapRun gw cancelAt n (List.range' i k) st).remainingQuantity
        = (st.executedOrders.map TwapSlice.quantity).sum + st.remainingQuantity) ∧
      (∀ j, i ≤ j → j < n →
        (∀ o, gw j = .ok o →
          ∃ s ∈ (twapRun gw cancelAt n (List.range' i k) st).executedOrders,
            s.sliceNum = j + 1) ∧
        (∀ e, gw j = .error e →
          ∃ f ∈ (twapRun gw cancelAt n (List.range' i k) st).failedOrders,
            f.sliceNum = j + 1 ∧ f.error = e)) ∧
      (∀ s ∈ (twapRun gw cancelAt n (List.range' i k) st).executedOrders,
        s ∈ st.executedOrders ∨
        ∃ j, i ≤ j ∧ j < n ∧ s.sliceNum = j + 1 ∧ (gw j).isOk) := by
  intro k
  induction k with
  | zero =>
    intro i st hik hact hns hsq hrem
    simp only [List.range', twapRun]
    exact ⟨trivial, fun j hij hjn => absurd hjn (by omega), fun s hs => Or.inl hs⟩
  | succ k ih =>
    intro i st hik hact hns hsq hrem
    obtain ⟨m, hm, hrm⟩ := hrem
    have hnq : (0 : ℚ) < total / n := div_pos htot (by exact_mod_cast hn)
    have hilt : i < n := by omega
    have hremq : (0 : ℚ) < st.remainingQuantity := by
      rw [hrm]
      apply mul_pos _ hnq
      have h1 : (m : ℚ) < (n : ℚ) := by exact_mod_cast (show m < n by omega)
      linarith
    rw [List.range'_succ]
    simp only [twapRun, hnc i]
    set q := if i = n - 1 then st.remainingQuantity else st.sliceQuantity with hqdef
    have hqpos : 0 < q := by
      rw [hqdef]
      split
      · exact hremq
      · rw [hsq]
        exact hnq
    rw [if_pos hact, if_neg (not_le.mpr hqpos)]
    have hinv : ∃ m' : Nat, m' ≤ i + 1 ∧
        (twapPlaceSlice gw i q st).remainingQuantity = ((n : ℚ) - m') * (total / n) := by
      cases hgw : gw i with
      | ok o =>
        rw [twapPlaceSlice_rem_ok gw i q st o hgw]
        by_cases hl : i = n - 1
        · refine ⟨n, by omega, ?_⟩
          rw [hqdef, if_pos hl]
          simp only [sub_self]
          ring
        · refine ⟨m + 1, by omega, ?_⟩
          rw [hqdef, if_neg hl, hrm, hsq]
          push_cast
          ring
      | error e =>
        rw [twapPlaceSlice_rem_error gw i q st e hgw]
        exact ⟨m, by omega, hrm⟩
    obtain ⟨h1, h2, h3⟩ := ih (i + 1) (twapPlaceSlice gw i q st) (by omega)
      ((twapPlaceSlice_status gw i q st).trans hact)
      ((twapPlaceSlice_numSlices gw i q st).trans hns)
      ((twapPlaceSlice_sliceQuantity gw i q st).trans hsq) hinv
    refine ⟨?_, ?_, ?_⟩
    · rw [h1]
      cases hgw : gw i with
      | ok o =>
        rw [twapPlaceSlice_exec_ok gw i q st o hgw, twapPlaceSlice_rem_ok gw i q st o hgw]
        simp only [List.map_append, List.sum_append, List.map_cons, List.map_nil,
          List.sum_cons, List.sum_nil]
        ring
      | error e =>
        rw [twapPlaceSlice_exec_error gw i q st e hgw,
          twapPlaceSlice_rem_error gw i q st e hgw]
    · intro j hij hjn
      by_cases hji : j = i
      · subst hji
        constructor
        · intro o ho
          refine ⟨⟨j + 1, q, o⟩, ?_, rfl⟩
          apply (twapRun_mono gw cancelAt n (List.range' (j + 1) k)
            (twapPlaceSlice gw j q st)).1
          rw [twapPlaceSlice_exec_ok gw j q st o ho]
          simp
        · intro e he
          refine ⟨⟨j + 1, q, e⟩, ?_, rfl, rfl⟩
          apply (twapRun_mono gw cancelAt n (List.range' (j + 1) k)
            (twapPlaceSlice gw j q st)).2
          rw [twapPlaceSlice_failed_error gw j q st e he]
          simp
      · exact h2 j (by omega) hjn
    · intro s hs
      rcases h3 s hs with hs' | ⟨j, hj1, hj2, hj3, hj4⟩
      · cases hgw : gw i with
        | ok o =>
          rw [twapPlaceSlice_exec_ok gw i q st o hgw] at hs'
          rcases List.mem_append.mp hs' with h | h
          · exact Or.inl h
          · right
            refine ⟨i, le_refl i, hilt, ?_, ?_⟩
            · simp only [List.mem_singleton] at h
              rw [h]
            · rw [hgw]
              rfl
        | error e =>
          rw [twapPlaceSlice_exec_error gw i q st e hgw] at hs'
          exact Or.inl hs'
      · exact Or.inr ⟨j, by omega, hj2, hj3, hj4⟩

/-- Success shape of `execute_twap_order` with an explicit slice count:
the validations pass and the call returns the id with the state left by
the synchronous slicing loop run on the freshly registered record. -/
lemma executeTwapOrder_eq_ok (gw : Nat → Except String Order) (cancelAt : Nat → Option Nat)
    (now tEnd : Nat) (symbol : String) (side : Side) (total : ℚ) (dur n : Nat)
    (orderType : OrderType) (price? p2? : Option ℚ)
    (hsym : 3 ≤ symbol.length) (htot : 0 < total) (hdur : 0 < dur) (hn : 0 < n)
    (hvp : validateLimitPrice orderType price? = .ok p2?) :
    executeTwapOrder gw cancelAt now tEnd symbol side total dur (some n) orderType price?
      = .ok (twapStrategyId (pyUpper symbol) now,
          executeTwapSlices gw cancelAt tEnd
            { symbol := pyUpper symbol
              side := side
              totalQuantity := total
              remainingQuantity := total
              numSlices := n
              sliceQuantity := total / n
              sliceInterval := ((dur : ℚ) * 60) / n
              orderType := orderType
              price := p2?
              startTime := now
              endTime := now + dur * 60
              status := .ACTIVE
              executedOrders := []
              failedOrders := [] }) := by
  simp only [executeTwapOrder, validateSymbol_ok symbol hsym, validateQuantity_ok total htot,
    if_neg (show ¬ dur = 0 by omega), hvp, Option.getD_some,
    if_neg (show ¬ n = 0 by omega)]

/-- The slicing loop on a fresh record with all Gateway placements
succeeding and no external cancel: full quantity executed, zero
remaining, `n` executed slices, no failures, final status COMPLETED with
`end_time` stamped at the loop exit. -/
lemma executeTwapSlices_all_ok (gw : Nat → Except String Order)
    (cancelAt : Nat → Option Nat) (tEnd : Nat) (n : Nat) (total : ℚ) (st0 : TwapState)
    (htot : 0 < total) (hn : 0 < n) (hok : ∀ i, (gw i).isOk) (hnc : ∀ i, cancelAt i = none)
    (h1 : st0.status = .ACTIVE) (h2 : st0.numSlices = n)
    (h3 : st0.sliceQuantity = total / n) (h4 : st0.remainingQuantity = total)
    (h5 : st0.executedOrders = []) (h6 : st0.failedOrders = []) :
    ((executeTwapSlices gw cancelAt tEnd st0).executedOrders.map TwapSlice.quantity).sum
        = total ∧
    (executeTwapSlices gw cancelAt tEnd st0).remainingQuantity = 0 ∧
    (executeTwapSlices gw cancelAt tEnd st0).executedOrders.length = n ∧
    (executeTwapSlices gw cancelAt tEnd st0).failedOrders = [] ∧
    (executeTwapSlices gw cancelAt tEnd st0).status = .COMPLETED ∧
    (executeTwapSlices gw cancelAt tEnd st0).endTime = tEnd := by
  have hnq : ((n : ℚ)) ≠ 0 := by
    have := hn
    positivity
  obtain ⟨hr, hsum, hlen, hfail⟩ := twapRun_all_ok gw cancelAt n total htot hn hok hnc
    n 0 st0 (by omega) h1 h2 h3 (by
      rw [h4]
      push_cast
      rw [sub_zero]
      field_simp)
  simp only [executeTwapSlices, h2, List.range_eq_range']
  refine ⟨?_, hr, ?_, ?_, trivial, trivial⟩
  · rw [hsum, h5, h4]
    simp
  · rw [hlen, h5]
    simp
  · rw [hfail, h6]

/-- C4: a TWAP execution in which every slice placement succeeds (and no
external cancel interleaves) executes exactly the total quantity — the
final slice absorbs the rounding remainder — ends with zero remaining
quantity, `n` executed slices and no failed slice. -/
theorem twap_quantity_conservation (gw : Nat → Except String Order)
    (cancelAt : Nat → Option Nat) (now tEnd : Nat) (symbol : String) (side : Side)
    (total : ℚ) (dur n : Nat) (orderType : OrderType) (price? : Option ℚ)
    (hsym : 3 ≤ symbol.length) (htot : 0 < total) (hdur : 0 < dur) (hn : 0 < n)
    (hok : ∀ i, (gw i).isOk) (hnc : ∀ i, cancelAt i = none)
    (hprice : orderType = .MARKET ∨ ∃ p, price? = some p ∧ 0 < p) :
    ∃ st : TwapState,
      executeTwapOrder gw cancelAt now tEnd symbol side total dur (some n) orderType price?
        = .ok (twapStrategyId (pyUpper symbol) now, st) ∧
      (st.executedOrders.map TwapSlice.quantity).sum = total ∧
      st.remainingQuantity = 0 ∧
      st.executedOrders.length = n ∧
      st.failedOrders = [] ∧
      st.status = .COMPLETED ∧
      st.endTime = tEnd := by
  obtain ⟨p2?, hvp⟩ : ∃ p2?, validateLimitPrice orderType price? = .ok p2? := by
    rcases hprice with h | ⟨p, hp, hpp⟩
    · subst h
      exact ⟨price?, rfl⟩
    · subst hp
      cases orderType with
      | MARKET => exact ⟨some p, rfl⟩
      | LIMIT =>
        refine ⟨some p, ?_⟩
        simp only [validateLimitPrice, validatePrice_ok p hpp]
  rw [executeTwapOrder_eq_ok gw cancelAt now tEnd symbol side total dur n orderType
    price? p2? hsym htot hdur hn hvp]
  obtain ⟨c1, c2, c3, c4, c5, c6⟩ := executeTwapSlices_all_ok gw cancelAt tEnd n total
    { symbol := pyUpper symbol
      side := side
      totalQuantity := total
      remainingQuantity := total
      numSlices := n
      sliceQuantity := total / n
      sliceInterval := ((dur : ℚ) * 60) / n
      orderType := orderType
      price := p2?
      startTime := now
      endTime := now + dur * 60
      status := .ACTIVE
      executedOrders := []
      failedOrders := [] } htot hn hok hnc rfl rfl rfl rfl rfl rfl
  exact ⟨_, rfl, c1, c2, c3, c4, c5, c6⟩

/-- The slicing loop on a fresh record with no external cancel, arbitrary
per-slice Gateway outcomes: quantity is conserved, every slice index is
attempted and recorded per its outcome, executed entries trace to
successful calls, and the final status is COMPLETED. -/
lemma executeTwapSlices_attempts (gw : Nat → Except String Order)
    (cancelAt : Nat → Option Nat) (tEnd : Nat) (n : Nat) (total : ℚ) (st0 : TwapState)
    (htot : 0 < total) (hn : 0 < n) (hnc : ∀ i, cancelAt i = none)
    (h1 : st0.status = .ACTIVE) (h2 : st0.numSlices = n)
    (h3 : st0.sliceQuantity = total / n) (h4 : st0.remainingQuantity = total)
    (h5 : st0.executedOrders = []) (_h6 : st0.failedOrders = []) :
    (((executeTwapSlices gw cancelAt tEnd st0).executedOrders.map TwapSlice.quantity).sum
        + (executeTwapSlices gw cancelAt tEnd st0).remainingQuantity = total) ∧
    (∀ j, j < n →
      (∀ o, gw j = .ok o →
        ∃ s ∈ (executeTwapSlices gw cancelAt tEnd st0).executedOrders,
          s.sliceNum = j + 1) ∧
      (∀ e, gw j = .error e →
        ∃ f ∈ (executeTwapSlices gw cancelAt tEnd st0).failedOrders,
          f.sliceNum = j + 1 ∧ f.error = e)) ∧
    (∀ s ∈ (executeTwapSlices gw cancelAt tEnd st0).executedOrders,
      ∃ j, j < n ∧ s.sliceNum = j + 1 ∧ (gw j).isOk) ∧
    (executeTwapSlices gw cancelAt tEnd st0).status = .COMPLETED := by
  obtain ⟨hcons, hatt, hprov⟩ := twapRun_attempts gw cancelAt n total htot hn hnc n 0 st0
    (by omega) h1 h2 h3 ⟨0, by omega, by
      rw [h4]
      push_cast
      rw [sub_zero]
      field_simp⟩
  simp only [executeTwapSlices, h2, List.range_eq_range']
  refine ⟨?_, ?_, ?_, trivial⟩
  · rw [hcons, h5, h4]
    simp
  · intro j hj
    exact hatt j (Nat.zero_le j) hj
  · intro s hs
    rcases hprov s hs with h | ⟨j, _, hj2, hj3, hj4⟩
    · rw [h5] at h
      cases h
    · exact ⟨j, hj2, hj3, hj4⟩

/-- C7: if slice `k`'s placement fails while the strategy is never
externally canceled, the loop records the failure for slice `k` (1-based
entry `k+1`), records no execution for it, leaves the remaining quantity
not decremented for it (executed quantities plus remaining still equal
the total), and still attempts slice `k+1`. -/
theorem twap_slice_failure_isolated (gw : Nat → Except String Order)
    (cancelAt : Nat → Option Nat) (now tEnd : Nat) (symbol : String) (side : Side)
    (total : ℚ) (dur n k : Nat) (e : String) (orderType : OrderType) (price? : Option ℚ)
    (hsym : 3 ≤ symbol.length) (htot : 0 < total) (hdur : 0 < dur) (hn : 0 < n)
    (hk : k < n) (hfailk : gw k = .error e) (hnc : ∀ i, cancelAt i = none)
    (hprice : orderType = .MARKET ∨ ∃ p, price? = some p ∧ 0 < p) :
    ∃ st : TwapState,
      executeTwapOrder gw cancelAt now tEnd symbol side total dur (some n) orderType price?
        = .ok (twapStrategyId (pyUpper symbol) now, st) ∧
      (∃ f ∈ st.failedOrders, f.sliceNum = k + 1 ∧ f.error = e) ∧
      (∀ s ∈ st.executedOrders, s.sliceNum ≠ k + 1) ∧
      (st.executedOrders.map TwapSlice.quantity).sum + st.remainingQuantity = total ∧
      (k + 1 < n →
        (∃ s ∈ st.executedOrders, s.sliceNum = k + 2) ∨
        (∃ f ∈ st.failedOrders, f.sliceNum = k + 2)) ∧
      st.status = .COMPLETED := by
  obtain ⟨p2?, hvp⟩ : ∃ p2?, validateLimitPrice orderType price? = .ok p2? := by
    rcases hprice with h | ⟨p, hp, hpp⟩
    · subst h
      exact ⟨price?, rfl⟩
    · subst hp
      cases orderType with
      | MARKET => exact ⟨some p, rfl⟩
      | LIMIT =>
        refine ⟨some p, ?_⟩
        simp only [validateLimitPrice, validatePrice_ok p hpp]
  rw [executeTwapOrder_eq_ok gw cancelAt now tEnd symbol side total dur n orderType
    price? p2? hsym htot hdur hn hvp]
  obtain ⟨hcons, hatt, hprov, hstat⟩ := executeTwapSlices_attempts gw cancelAt tEnd n total
    { symbol := pyUpper symbol
      side := side
      totalQuantity := total
      remainingQuantity := total
      numSlices := n
      sliceQuantity := total / n
      sliceInterval := ((dur : ℚ) * 60) / n
      orderType := orderType
      price := p2?
      startTime := now
      endTime := now + dur * 60
      status := .ACTIVE
      executedOrders := []
      failedOrders := [] } htot hn hnc rfl rfl rfl rfl rfl rfl
  refine ⟨_, rfl, (hatt k hk).2 e hfailk, ?_, hcons, ?_, hstat⟩
  · intro s hs hsn
    obtain ⟨j, hj, hj3, hj4⟩ := hprov s hs
    have hjk : j = k := by omega
    subst hjk
    rw [hfailk] at hj4
    simp [Except.isOk, Except.toBool] at hj4
  · intro hk1
    cases hgw : gw (k + 1) with
    | ok o => exact Or.inl ((hatt (k + 1) hk1).1 o hgw)
    | error e2 =>
      obtain ⟨f, hf, hf1, _⟩ := (hatt (k + 1) hk1).2 e2 hgw
      exact Or.inr ⟨f, hf, hf1⟩

/-- C4 witness: a concrete 10-slice market TWAP of total quantity 1 over
10 minutes with every placement succeeding executes exactly 1 with zero
remainder. -/
theorem twap_quantity_conservation_witness :
    ∃ st : TwapState,
      executeTwapOrder (fun i => .ok ⟨i⟩) (fun _ => none) 3 700 "BTCUSDT" .BUY 1 10
          (some 10) .MARKET none = .ok ("TWAP_BTCUSDT_3", st) ∧
      (st.executedOrders.map TwapSlice.quantity).sum = 1 ∧
      st.remainingQuantity = 0 ∧
      st.executedOrders.length = 10 ∧
      st.failedOrders = [] := by
  obtain ⟨st, h0, h1, h2, h3, h4, _, _⟩ := twap_quantity_conservation (fun i => .ok ⟨i⟩)
    (fun _ => none) 3 700 "BTCUSDT" .BUY 1 10 10 .MARKET none (by decide) (by norm_num)
    (by norm_num) (by norm_num) (fun i => rfl) (fun i => rfl) (Or.inl rfl)
  have hup : pyUpper "BTCUSDT" = "BTCUSDT" := by decide
  have hid : twapStrategyId "BTCUSDT" 3 = "TWAP_BTCUSDT_3" := by decide
  rw [hup, hid] at h0
  exact ⟨st, h0, h1, h2, h3, h4⟩

/-- C7 witness: in a concrete 3-slice TWAP whose slice 2 (0-based index 1)
placement is rejected, the failure is recorded for slice 2, no execution
entry exists for it, quantity is conserved, and slice 3 is still
attempted. -/
theorem twap_slice_failure_isolated_witness :
    ∃ st : TwapState,
      executeTwapOrder (fun i => if i = 1 then .error "rejected" else .ok ⟨i⟩)
          (fun _ => none) 5 900 "BTCUSDT" .SELL 3 9 (some 3) .MARKET none
        = .ok ("TWAP_BTCUSDT_5", st) ∧
      (∃ f ∈ st.failedOrders, f.sliceNum = 2 ∧ f.error = "rejected") ∧
      (∀ s ∈ st.executedOrders, s.sliceNum ≠ 2) ∧
      (st.executedOrders.map TwapSlice.quantity).sum + st.remainingQuantity = 3 ∧
      ((∃ s ∈ st.executedOrders, s.sliceNum = 3) ∨ ∃ f ∈ st.failedOrders, f.sliceNum = 3) := by
  obtain ⟨st, h0, h1, h2, h3, h4, _⟩ := twap_slice_failure_isolated
    (fun i => if i = 1 then .error "rejected" else .ok ⟨i⟩) (fun _ => none) 5 900
    "BTCUSDT" .SELL 3 9 3 1 "rejected" .MARKET none (by decide) (by norm_num)
    (by norm_num) (by norm_num) (by norm_num) rfl (fun i => rfl) (Or.inl rfl)
  have hup : pyUpper "BTCUSDT" = "BTCUSDT" := by decide
  have hid : twapStrategyId "BTCUSDT" 5 = "TWAP_BTCUSDT_5" := by decide
  rw [hup, hid] at h0
  exact ⟨st, h0, h1, h2, h3, h4 (by norm_num)⟩

end TradingBot
